import Mathlib

/-!
Verification of the Jira→Applens conversion pipeline (`data_transformer.py`).

The embedding models a pandas DataFrame as an ordered list of column names
together with rows of cells (aligned positionally), and mirrors the five
pipeline functions of the source: `load_source_data`, `apply_transformations`,
`validate_and_clean`, `save_target_file`, `run_transformation_pipeline`.
Fallible steps (missing file, missing schema columns, pandas KeyError on
column access, write failure) are made explicit with `Except` / `Bool`.
-/

namespace Applens

/-- A cell of a DataFrame: a string value, a parsed date (pandas `Timestamp`
restricted to year/month/day, which is all this pipeline produces), or a
missing value (pandas `NaN`/`NaT`). -/
inductive Cell where
  | str : String → Cell
  | date : Nat → Nat → Nat → Cell
  | null : Cell
deriving DecidableEq, Repr

/-- A pandas DataFrame: ordered column names and rows of cells, the `i`-th
cell of a row belonging to the `i`-th column. -/
structure DataFrame where
  cols : List String
  rows : List (List Cell)
deriving DecidableEq, Repr

/-- Well-formedness: every row has exactly one cell per column. -/
def DataFrame.alignedB (df : DataFrame) : Bool :=
  df.rows.all (fun r => r.length == df.cols.length)

/-- A decoded CSV file: a header row of column names and data rows of raw
string fields. -/
structure CsvFile where
  header : List String
  rows : List (List String)
deriving DecidableEq, Repr

/-- Decidable equality on `Except`, so that concrete pipeline outcomes can
be checked by evaluation. -/
instance {ε α : Type} [DecidableEq ε] [DecidableEq α] :
    DecidableEq (Except ε α) := fun a b =>
  match a, b with
  | Except.error e1, Except.error e2 =>
    if h : e1 = e2 then Decidable.isTrue (h ▸ rfl)
    else Decidable.isFalse (fun hh => h (by cases hh; rfl))
  | Except.error _, Except.ok _ =>
    Decidable.isFalse (fun hh => Except.noConfusion hh)
  | Except.ok _, Except.error _ =>
    Decidable.isFalse (fun hh => Except.noConfusion hh)
  | Except.ok a1, Except.ok a2 =>
    if h : a1 = a2 then Decidable.isTrue (h ▸ rfl)
    else Decidable.isFalse (fun hh => h (by cases hh; rfl))

/-- Model of `COLUMN_MAPPING` of the source: source column → target column. -/
def COLUMN_MAPPING : List (String × String) :=
  [("Issue Key", "Ticket ID"),
   ("Issue Type", "Ticket Type"),
   ("Updated", "Open Date"),
   ("Status", "Status"),
   ("Resolved", "Closed Date")]

/-- Model of `CONSTANTS` of the source: target column → fixed literal value. -/
def CONSTANTS : List (String × String) :=
  [("Priority", "NONE"),
   ("Application", "HMOF"),
   ("Assignment Group", "HMH Support Group")]

/-- Model of `FINAL_COLUMN_ORDER` of the source: the strict output column order. -/
def FINAL_COLUMN_ORDER : List String :=
  ["Ticket ID", "Ticket Type", "Open Date", "Priority",
   "Status", "Application", "Assignment Group", "Closed Date"]

/-- The required source-side column names (`COLUMN_MAPPING.keys()`). -/
def srcCols : List String := COLUMN_MAPPING.map Prod.fst

/-- Python `col.lower().strip()` for header matching, computed on the
character list (ASCII lowering and whitespace stripping, which is what the
column names of this pipeline exercise). -/
def normalizeName (s : String) : String :=
  ⟨(((s.data.map Char.toLower).dropWhile Char.isWhitespace).reverse.dropWhile
      Char.isWhitespace).reverse⟩

/-- Cells as produced by `pd.read_csv`: an empty field reads as `NaN`. -/
def readCell (s : String) : Cell :=
  if s = "" then Cell.null else Cell.str s

/-- pandas NA test (`dropna`/`fillna` treat `NaN`/`NaT` as missing, but not
the empty string). -/
def isNA : Cell → Bool
  | Cell.null => true
  | _ => false

/-- Model of `actual_col_map[req.lower().strip()]` of the source: the dict
comprehension keeps the last header column for each normalized name, so
lookup searches the reversed header. -/
def findActual (header : List String) (req : String) : Option String :=
  header.reverse.find? (fun c => normalizeName c = normalizeName req)

/-- The required columns with no case/whitespace-insensitive match in the
header (`missing_cols` of the source, in `COLUMN_MAPPING` key order). -/
def missingColumns (header : List String) : List String :=
  srcCols.filter (fun req => (findActual header req).isNone)

/-- Model of `usecols_actual` of the source: resolved actual header names, one per
required column. -/
def usecolsActual (header : List String) : List String :=
  srcCols.filterMap (findActual header)

/-- Model of `normalization_map` applied to one actual column name: the required
column it was resolved for, if any (otherwise the name is left alone, as
`DataFrame.rename` ignores unknown keys). -/
def normalizeHeaderName (header : List String) (c : String) : String :=
  match srcCols.find? (fun req => findActual header req = some c) with
  | some req => req
  | none => c

/-- Errors of the loading phase. -/
inductive LoadError where
  | fileNotFound
  | schemaError (missing : List String)
deriving DecidableEq, Repr

/-- Model of `pd.read_csv(file_path, usecols=...)`: materialize the columns whose
header name is among `use`, keeping the file's column order. -/
def readSelected (f : CsvFile) (use : List String) : DataFrame :=
  let idxs := (List.range f.header.length).filter
    (fun i => decide (f.header.getD i "" ∈ use))
  { cols := idxs.map (fun i => f.header.getD i ""),
    rows := f.rows.map (fun r => idxs.map (fun i => readCell (r.getD i ""))) }

/-- Model of `load_source_data` of the source: resolve the required columns against
the actual header case/whitespace-insensitively, fail with a `schemaError`
listing every missing one, otherwise read just those columns and rename them
to the canonical source names. The input is `none` when the path does not
reference an existing file. -/
def load_source_data (file : Option CsvFile) : Except LoadError DataFrame :=
  match file with
  | none => Except.error LoadError.fileNotFound
  | some f =>
    let missing := missingColumns f.header
    if missing ≠ [] then
      Except.error (LoadError.schemaError missing)
    else
      let df := readSelected f (usecolsActual f.header)
      Except.ok { cols := df.cols.map (normalizeHeaderName f.header), rows := df.rows }

/-- Model of `DataFrame.rename(columns=m)`: rename every column that appears as a key
of `m`; unknown columns are untouched. -/
def renameCols (m : List (String × String)) (df : DataFrame) : DataFrame :=
  { cols := df.cols.map (fun c => (((m.find? (fun p => p.1 = c)).map Prod.snd).getD c)),
    rows := df.rows }

/-- Model of `df[col] = val` with a scalar: overwrite the column in place if present,
otherwise append it on the right, broadcasting the value to every row. -/
def setConst (df : DataFrame) (c : String) (v : String) : DataFrame :=
  match df.cols.findIdx? (fun x => x = c) with
  | some i => { cols := df.cols, rows := df.rows.map (fun r => r.set i (Cell.str v)) }
  | none => { cols := df.cols ++ [c], rows := df.rows.map (fun r => r ++ [Cell.str v]) }

/-- Model of `apply_transformations` of the source: rename via `COLUMN_MAPPING`, then
set every `CONSTANTS` column to its literal on every row. -/
def apply_transformations (df : DataFrame) : DataFrame :=
  CONSTANTS.foldl (fun d p => setConst d p.1 p.2) (renameCols COLUMN_MAPPING df)

/-- Digit-string parsing on a character list (Python `int(...)` on a
numeric field). -/
def charsToNat? (l : List Char) : Option Nat :=
  if l ≠ [] ∧ l.all Char.isDigit then
    some (l.foldl (fun n c => n * 10 + (c.toNat - 48)) 0)
  else none

/-- Date parsing as `pd.to_datetime` behaves on this pipeline's inputs:
an ISO `YYYY-MM-DD` string with in-range month and day parses; anything
else does not. -/
def parseDate (s : String) : Option (Nat × Nat × Nat) :=
  match (s.data.splitOn '-').map charsToNat? with
  | [some y, some m, some d] =>
    if 1 ≤ m ∧ m ≤ 12 ∧ 1 ≤ d ∧ d ≤ 31 then some (y, m, d) else none
  | _ => none

/-- One cell under `pd.to_datetime(col, errors=coerce)`: missing stays
missing, an already-parsed date stays itself, a string becomes a date if
parseable and `NaT` otherwise. Total: never raises. -/
def coerceDate : Cell → Cell
  | Cell.null => Cell.null
  | Cell.date y m d => Cell.date y m d
  | Cell.str s =>
    match parseDate s with
    | some (y, m, d) => Cell.date y m d
    | none => Cell.null

/-- Model of `fillna on one cell: replace a missing value by the empty string. -/
def fillBlank (c : Cell) : Cell :=
  if isNA c then Cell.str "" else c

/-- Apply `f` to every cell of column `c` (no-op when the column is absent,
callers guard on presence as the source does). -/
def setColCells (df : DataFrame) (c : String) (f : Cell → Cell) : DataFrame :=
  match df.cols.findIdx? (fun x => x = c) with
  | some i => { cols := df.cols, rows := df.rows.map (fun r => r.set i (f (r.getD i Cell.null))) }
  | none => df

/-- The cells of column `c` top to bottom (`[]` when the column is absent). -/
def getColCells (df : DataFrame) (c : String) : List Cell :=
  match df.cols.findIdx? (fun x => x = c) with
  | some i => df.rows.map (fun r => r.getD i Cell.null)
  | none => []

/-- A pandas `KeyError` on a column access. -/
inductive CleanError where
  | keyError (col : String)
deriving DecidableEq, Repr

/-- The date-bearing target columns of the source's `date_cols`. -/
def DATE_COLS : List String := ["Open Date", "Closed Date"]

/-- Model of `df.dropna(subset=[Ticket ID])` of the source: drop every row whose
Ticket ID cell is missing (raises `KeyError` when the column is absent,
as pandas does). -/
def dropTicketRows (df : DataFrame) : Except CleanError DataFrame :=
  match df.cols.findIdx? (fun x => x = "Ticket ID") with
  | none => Except.error (CleanError.keyError "Ticket ID")
  | some i =>
    Except.ok { cols := df.cols,
                rows := df.rows.filter (fun r => !isNA (r.getD i Cell.null)) }

/-- Model of `validate_and_clean` of the source: drop rows with missing Ticket ID,
coerce each date column that is present, then unconditionally normalize
nulls of the Closed Date column to the empty string — a `KeyError` when
that column is absent. -/
def validate_and_clean (df : DataFrame) : Except CleanError DataFrame :=
  match dropTicketRows df with
  | Except.error e => Except.error e
  | Except.ok df1 =>
    let df2 := DATE_COLS.foldl
      (fun d c => if c ∈ d.cols then setColCells d c coerceDate else d) df1
    if "Closed Date" ∈ df2.cols then
      Except.ok (setColCells df2 "Closed Date" fillBlank)
    else
      Except.error (CleanError.keyError "Closed Date")

/-- Model of `df[FINAL_COLUMN_ORDER]` of the source: project onto exactly the final
columns in that order; a `KeyError` when any is absent. -/
def projectFinal (df : DataFrame) : Except CleanError DataFrame :=
  match FINAL_COLUMN_ORDER.mapM (fun c => df.cols.findIdx? (fun x => x = c)) with
  | some idxs =>
    Except.ok { cols := FINAL_COLUMN_ORDER,
                rows := df.rows.map (fun r => idxs.map (fun i => r.getD i Cell.null)) }
  | none => Except.error (CleanError.keyError "projection")

/-- Model of `save_target_file` of the source: project onto `FINAL_COLUMN_ORDER` and
serialize. Both the projection's `KeyError` and a failed write (`writeOk =
false`, environmental) are caught inside and become `(false, none)`; nothing
is re-raised and no artifact is emitted on failure. -/
def save_target_file (df : DataFrame) (writeOk : Bool) : Bool × Option DataFrame :=
  match projectFinal df with
  | Except.error _ => (false, none)
  | Except.ok dfF => if writeOk then (true, some dfF) else (false, none)

/-- Model of `run_transformation_pipeline` of the source: the four stages in order;
any exception from loading/mapping/cleaning is caught and resolves to
`false`; the writer's own boolean is propagated. Returns the success flag
and the artifact written (if any). -/
def run_transformation_pipeline (input : Option CsvFile) (writeOk : Bool) :
    Bool × Option DataFrame :=
  match load_source_data input with
  | Except.error _ => (false, none)
  | Except.ok df =>
    match validate_and_clean (apply_transformations df) with
    | Except.error _ => (false, none)
    | Except.ok df2 => save_target_file df2 writeOk

/-- A filesystem for the two-run property: the input file and whatever
artifact currently sits at the output path. -/
structure FileSystem where
  input : Option CsvFile
  output : Option DataFrame
deriving DecidableEq, Repr

/-- One pipeline run against the filesystem: the input path is only read,
and the output path is overwritten exactly when the run succeeds. -/
def runOnFS (fs : FileSystem) (writeOk : Bool) : Bool × FileSystem :=
  match run_transformation_pipeline fs.input writeOk with
  | (true, art) => (true, { input := fs.input, output := art })
  | (false, _) => (false, fs)

end Applens

namespace Applens

/-! ### Generic list helpers -/

theorem length_filter_add_length_not (l : List α) (p : α → Bool) :
    (l.filter p).length + (l.filter (fun a => !p a)).length = l.length := by
  induction l with
  | nil => rfl
  | cons x xs ih =>
    by_cases h : p x = true <;> simp [List.filter_cons, h] <;> omega

theorem getD_map_of_lt (f : α → β) (l : List α) {j : Nat} (h : j < l.length)
    (d : β) (d0 : α) : (l.map f).getD j d = f (l.getD j d0) := by
  simp [List.getD_eq_getElem?_getD, List.getElem?_eq_getElem h,
    List.getElem?_map]

theorem getD_set_self_of_lt (l : List α) {i : Nat} (h : i < l.length) (a d : α) :
    (l.set i a).getD i d = a := by
  simp [List.getD_eq_getElem?_getD, List.getElem?_set_self h]

theorem getD_set_ne' (l : List α) {i j : Nat} (h : i ≠ j) (a d : α) :
    (l.set i a).getD j d = l.getD j d := by
  simp [List.getD_eq_getElem?_getD, List.getElem?_set_ne h]

theorem findIdx?_col_isSome {cols : List String} {c : String} (h : c ∈ cols) :
    ∃ i, cols.findIdx? (fun x => x = c) = some i := by
  have hs : (cols.findIdx? (fun x => x = c)).isSome = true := by
    rw [List.findIdx?_isSome]
    exact List.any_eq_true.mpr ⟨c, h, by simp⟩
  exact Option.isSome_iff_exists.mp hs

theorem findIdx?_col_spec {cols : List String} {c : String} {i : Nat}
    (h : cols.findIdx? (fun x => x = c) = some i) :
    i < cols.length ∧ cols.getD i "" = c := by
  obtain ⟨hlt, hp, -⟩ := List.findIdx?_eq_some_iff_getElem.mp h
  refine ⟨hlt, ?_⟩
  have := of_decide_eq_true hp
  simp [List.getD_eq_getElem?_getD, List.getElem?_eq_getElem hlt, this]

theorem findIdx?_col_none {cols : List String} {c : String} (h : c ∉ cols) :
    cols.findIdx? (fun x => x = c) = none := by
  rw [List.findIdx?_eq_none_iff]
  intro x hx
  simp only [decide_eq_false_iff_not]
  rintro rfl; exact h hx

/-! ### Lemmas about the DataFrame operations -/

theorem setColCells_cols (df : DataFrame) (c : String) (f : Cell → Cell) :
    (setColCells df c f).cols = df.cols := by
  unfold setColCells; split <;> rfl

theorem setColCells_rows_length (df : DataFrame) (c : String) (f : Cell → Cell) :
    (setColCells df c f).rows.length = df.rows.length := by
  unfold setColCells; split <;> simp

theorem setColCells_aligned {df : DataFrame} (c : String) (f : Cell → Cell)
    (hA : df.alignedB = true) : (setColCells df c f).alignedB = true := by
  unfold setColCells
  split
  · simp only [DataFrame.alignedB, List.all_eq_true, List.mem_map] at hA ⊢
    rintro x ⟨r, hr, rfl⟩
    simpa using hA r hr
  · exact hA

theorem getColCells_setColCells_self {df : DataFrame} {c : String}
    (f : Cell → Cell) (hc : c ∈ df.cols) (hA : df.alignedB = true) :
    getColCells (setColCells df c f) c = (getColCells df c).map f := by
  obtain ⟨i, hi⟩ := findIdx?_col_isSome hc
  have hlt := (findIdx?_col_spec hi).1
  unfold setColCells getColCells
  rw [hi]
  simp only [hi, List.map_map]
  refine List.map_congr_left (fun r hr => ?_)
  have hrl : r.length = df.cols.length := by
    simp only [DataFrame.alignedB, List.all_eq_true] at hA
    exact eq_of_beq (hA r hr)
  exact getD_set_self_of_lt r (hrl ▸ hlt) _ _

theorem getColCells_setColCells_other {df : DataFrame} {c c' : String}
    (f : Cell → Cell) (hne : c' ≠ c) :
    getColCells (setColCells df c f) c' = getColCells df c' := by
  unfold setColCells
  cases hi : df.cols.findIdx? (fun x => x = c) with
  | none => rfl
  | some i =>
    unfold getColCells
    simp only
    cases hj : df.cols.findIdx? (fun x => x = c') with
    | none => rfl
    | some j =>
      have hci := (findIdx?_col_spec hi).2
      have hcj := (findIdx?_col_spec hj).2
      have hij : i ≠ j := by
        rintro rfl; exact hne (hcj ▸ hci ▸ rfl)
      simp only [List.map_map]
      exact List.map_congr_left (fun r hr => getD_set_ne' r hij _ _)

theorem setConst_rows_length (df : DataFrame) (c v : String) :
    (setConst df c v).rows.length = df.rows.length := by
  unfold setConst; split <;> simp

theorem setConst_aligned {df : DataFrame} (c v : String)
    (hA : df.alignedB = true) : (setConst df c v).alignedB = true := by
  unfold setConst
  simp only [DataFrame.alignedB, List.all_eq_true] at hA
  split
  · simp only [DataFrame.alignedB, List.all_eq_true, List.mem_map]
    rintro x ⟨r, hr, rfl⟩
    simpa using hA r hr
  · simp only [DataFrame.alignedB, List.all_eq_true, List.mem_map]
    rintro x ⟨r, hr, rfl⟩
    have := eq_of_beq (hA r hr)
    simp [this]

theorem setConst_cols_mono {df : DataFrame} {c' : String} (c v : String)
    (h : c' ∈ df.cols) : c' ∈ (setConst df c v).cols := by
  unfold setConst
  split
  · exact h
  · exact List.mem_append_left _ h

theorem setConst_cols_self (df : DataFrame) (c v : String) :
    c ∈ (setConst df c v).cols := by
  unfold setConst
  split
  · rename_i i hi
    have := findIdx?_col_spec hi
    have : df.cols.getD i "" ∈ df.cols := by
      rw [List.getD_eq_getElem?_getD, List.getElem?_eq_getElem this.1]
      exact List.getElem_mem _
    simpa [findIdx?_col_spec ‹df.cols.findIdx? (fun x => x = c) = some i›] using
      (findIdx?_col_spec ‹df.cols.findIdx? (fun x => x = c) = some i›).2 ▸ this
  · exact List.mem_append_right _ (by simp)

theorem setConst_cols_extend (df : DataFrame) (c v : String) :
    ∃ ext, (setConst df c v).cols = df.cols ++ ext := by
  unfold setConst
  split
  · exact ⟨[], by simp⟩
  · exact ⟨[c], rfl⟩

end Applens

namespace Applens

theorem getColCells_setConst_self {df : DataFrame} (c v : String)
    (hA : df.alignedB = true) :
    getColCells (setConst df c v) c = List.replicate df.rows.length (Cell.str v) := by
  simp only [DataFrame.alignedB, List.all_eq_true] at hA
  unfold setConst
  cases hi : df.cols.findIdx? (fun x => x = c) with
  | some i =>
    have hlt := (findIdx?_col_spec hi).1
    unfold getColCells
    simp only [hi, List.map_map]
    rw [← List.map_const' df.rows (Cell.str v)]
    refine List.map_congr_left (fun r hr => ?_)
    have hrl : r.length = df.cols.length := eq_of_beq (hA r hr)
    exact getD_set_self_of_lt r (hrl ▸ hlt) _ _
  | none =>
    have hc : c ∉ df.cols := by
      intro hmem
      obtain ⟨j, hj⟩ := findIdx?_col_isSome hmem
      rw [hi] at hj; exact Option.noConfusion hj
    unfold getColCells
    have hfind : (df.cols ++ [c]).findIdx? (fun x => x = c) = some df.cols.length := by
      rw [List.findIdx?_append, findIdx?_col_none hc]
      simp
    simp only [hfind, List.map_map]
    rw [← List.map_const' df.rows (Cell.str v)]
    refine List.map_congr_left (fun r hr => ?_)
    have hrl : r.length = df.cols.length := eq_of_beq (hA r hr)
    simp [List.getD_eq_getElem?_getD, ← hrl, List.getElem?_concat_length]

theorem getColCells_setConst_other {df : DataFrame} {c c' : String} (v : String)
    (hne : c' ≠ c) (hA : df.alignedB = true) :
    getColCells (setConst df c v) c' = getColCells df c' := by
  simp only [DataFrame.alignedB, List.all_eq_true] at hA
  unfold setConst
  cases hi : df.cols.findIdx? (fun x => x = c) with
  | some i =>
    unfold getColCells
    simp only
    cases hj : df.cols.findIdx? (fun x => x = c') with
    | none => rfl
    | some j =>
      have hci := (findIdx?_col_spec hi).2
      have hcj := (findIdx?_col_spec hj).2
      have hij : i ≠ j := by
        rintro rfl; exact hne (hcj ▸ hci ▸ rfl)
      simp only [List.map_map]
      exact List.map_congr_left (fun r hr => getD_set_ne' r hij _ _)
  | none =>
    unfold getColCells
    simp only
    cases hj : df.cols.findIdx? (fun x => x = c') with
    | none =>
      have hc' : c' ∉ df.cols := by
        intro hmem
        obtain ⟨k, hk⟩ := findIdx?_col_isSome hmem
        rw [hj] at hk; exact Option.noConfusion hk
      have : (df.cols ++ [c]).findIdx? (fun x => x = c') = none := by
        apply findIdx?_col_none
        simp only [List.mem_append, List.mem_singleton]
        rintro (h | rfl)
        · exact hc' h
        · exact hne rfl
      simp [this]
    | some j =>
      have hjlt := (findIdx?_col_spec hj).1
      have : (df.cols ++ [c]).findIdx? (fun x => x = c') = some j := by
        rw [List.findIdx?_append, hj]; rfl
      simp only [this, List.map_map]
      refine List.map_congr_left (fun r hr => ?_)
      have hrl : r.length = df.cols.length := eq_of_beq (hA r hr)
      have hjr : j < r.length := hrl ▸ hjlt
      simp [List.getD_eq_getElem?_getD, List.getElem?_append_left hjr]

theorem renameCols_aligned {df : DataFrame} (m : List (String × String))
    (hA : df.alignedB = true) : (renameCols m df).alignedB = true := by
  simpa [DataFrame.alignedB, renameCols] using hA

theorem apply_transformations_eq (df : DataFrame) :
    apply_transformations df =
      setConst (setConst (setConst (renameCols COLUMN_MAPPING df)
        "Priority" "NONE") "Application" "HMOF")
        "Assignment Group" "HMH Support Group" := rfl

theorem apply_transformations_aligned {df : DataFrame}
    (hA : df.alignedB = true) : (apply_transformations df).alignedB = true := by
  rw [apply_transformations_eq]
  exact setConst_aligned _ _ (setConst_aligned _ _ (setConst_aligned _ _
    (renameCols_aligned _ hA)))

theorem apply_transformations_rows_length (df : DataFrame) :
    (apply_transformations df).rows.length = df.rows.length := by
  rw [apply_transformations_eq]
  simp [setConst_rows_length, renameCols]

end Applens

namespace Applens

theorem dropTicketRows_ok {df : DataFrame} {i : Nat}
    (hfi : df.cols.findIdx? (fun x => x = "Ticket ID") = some i) :
    dropTicketRows df = Except.ok
      ⟨df.cols, df.rows.filter (fun r => !isNA (r.getD i Cell.null))⟩ := by
  unfold dropTicketRows
  rw [hfi]

theorem dropTicketRows_err {df : DataFrame} (hT : "Ticket ID" ∉ df.cols) :
    dropTicketRows df = Except.error (CleanError.keyError "Ticket ID") := by
  unfold dropTicketRows
  rw [findIdx?_col_none hT]

theorem dateFold_cols (d : DataFrame) :
    (DATE_COLS.foldl
      (fun d c => if c ∈ d.cols then setColCells d c coerceDate else d) d).cols
      = d.cols := by
  simp only [DATE_COLS, List.foldl_cons, List.foldl_nil]
  split_ifs <;> simp [setColCells_cols]

theorem dateFold_rows_length (d : DataFrame) :
    (DATE_COLS.foldl
      (fun d c => if c ∈ d.cols then setColCells d c coerceDate else d) d).rows.length
      = d.rows.length := by
  simp only [DATE_COLS, List.foldl_cons, List.foldl_nil]
  split_ifs <;> simp [setColCells_rows_length]

theorem validate_and_clean_eq_of_mem {df : DataFrame} {i : Nat}
    (hfi : df.cols.findIdx? (fun x => x = "Ticket ID") = some i)
    (hO : "Open Date" ∈ df.cols) (hC : "Closed Date" ∈ df.cols) :
    validate_and_clean df = Except.ok
      (setColCells (setColCells (setColCells
          ⟨df.cols, df.rows.filter (fun r => !isNA (r.getD i Cell.null))⟩
        "Open Date" coerceDate) "Closed Date" coerceDate) "Closed Date" fillBlank) := by
  unfold validate_and_clean
  rw [dropTicketRows_ok hfi]
  simp only [DATE_COLS, List.foldl_cons, List.foldl_nil]
  set df1 : DataFrame :=
    (⟨df.cols, df.rows.filter (fun r => !isNA (r.getD i Cell.null))⟩ : DataFrame)
    with hdf1
  have hO1 : "Open Date" ∈ df1.cols := by rw [hdf1]; exact hO
  rw [if_pos hO1]
  have hC2 : "Closed Date" ∈ (setColCells df1 "Open Date" coerceDate).cols := by
    rw [setColCells_cols, hdf1]; exact hC
  rw [if_pos hC2]
  have hC3 : "Closed Date" ∈
      (setColCells (setColCells df1 "Open Date" coerceDate)
        "Closed Date" coerceDate).cols := by
    rw [setColCells_cols, setColCells_cols, hdf1]; exact hC
  rw [if_pos hC3]

theorem validate_and_clean_err_of_no_closed {df : DataFrame}
    (hC : "Closed Date" ∉ df.cols) :
    ∃ c, validate_and_clean df = Except.error (CleanError.keyError c) := by
  by_cases hT : "Ticket ID" ∈ df.cols
  · obtain ⟨i, hfi⟩ := findIdx?_col_isSome hT
    refine ⟨"Closed Date", ?_⟩
    unfold validate_and_clean
    rw [dropTicketRows_ok hfi]
    simp only
    rw [if_neg]
    rw [dateFold_cols]
    exact hC
  · exact ⟨"Ticket ID", by
      unfold validate_and_clean
      rw [dropTicketRows_err hT]⟩

theorem validate_ok_rows_length {df df2 : DataFrame} {i : Nat}
    (hfi : df.cols.findIdx? (fun x => x = "Ticket ID") = some i)
    (h : validate_and_clean df = Except.ok df2) :
    df2.rows.length = (df.rows.filter (fun r => !isNA (r.getD i Cell.null))).length := by
  unfold validate_and_clean at h
  rw [dropTicketRows_ok hfi] at h
  simp only at h
  split at h
  · cases h
    rw [setColCells_rows_length, dateFold_rows_length]
  · cases h

end Applens

namespace Applens

/-! ### Lemmas about projection and the writer -/

theorem mapM_option_isSome (f : α → Option β) (l : List α) :
    (l.mapM f).isSome = l.all (fun a => (f a).isSome) := by
  induction l with
  | nil => rfl
  | cons x xs ih =>
    rw [List.mapM_cons, List.all_cons]
    cases hfx : f x with
    | none => rfl
    | some y =>
      simp only [Option.isSome_some, Bool.true_and]
      cases hxs : xs.mapM f with
      | none => rw [hxs] at ih; exact ih.symm ▸ rfl
      | some ys => rw [hxs] at ih; exact ih.symm ▸ rfl

theorem projectFinal_ok_cols {df dfF : DataFrame}
    (h : projectFinal df = Except.ok dfF) : dfF.cols = FINAL_COLUMN_ORDER := by
  unfold projectFinal at h
  split at h
  · cases h; rfl
  · cases h

theorem projectFinal_err_of_missing {df : DataFrame} {c : String}
    (hc : c ∈ FINAL_COLUMN_ORDER) (hmiss : c ∉ df.cols) :
    projectFinal df = Except.error (CleanError.keyError "projection") := by
  have hnone : FINAL_COLUMN_ORDER.mapM
      (fun c => df.cols.findIdx? (fun x => x = c)) = none := by
    have hall : FINAL_COLUMN_ORDER.all
        (fun c => (df.cols.findIdx? (fun x => x = c)).isSome) = false := by
      rw [List.all_eq_false]
      exact ⟨c, hc, by simp [findIdx?_col_none hmiss]⟩
    have hiff := mapM_option_isSome
      (fun c => df.cols.findIdx? (fun x => x = c)) FINAL_COLUMN_ORDER
    cases hm : FINAL_COLUMN_ORDER.mapM
        (fun c => df.cols.findIdx? (fun x => x = c)) with
    | none => rfl
    | some idxs =>
      rw [hm] at hiff
      rw [hall] at hiff
      simp at hiff
  unfold projectFinal
  rw [hnone]

/-! ### Lemmas about the loader -/

theorem findActual_eq_none_iff {header : List String} {req : String} :
    findActual header req = none ↔
      ∀ c ∈ header, normalizeName c ≠ normalizeName req := by
  unfold findActual
  simp [List.find?_eq_none, List.mem_reverse]

theorem findActual_spec {header : List String} {req a : String}
    (h : findActual header req = some a) :
    a ∈ header ∧ normalizeName a = normalizeName req := by
  unfold findActual at h
  have hp := List.find?_some h
  exact ⟨List.mem_reverse.mp (List.mem_of_find?_eq_some h),
    of_decide_eq_true hp⟩

theorem mem_missingColumns {header : List String} {req : String} :
    req ∈ missingColumns header ↔
      req ∈ srcCols ∧ ∀ c ∈ header, normalizeName c ≠ normalizeName req := by
  simp [missingColumns, List.mem_filter, Option.isNone_iff_eq_none,
    findActual_eq_none_iff]

theorem load_schemaError {f : CsvFile} (h : missingColumns f.header ≠ []) :
    load_source_data (some f) =
      Except.error (LoadError.schemaError (missingColumns f.header)) := by
  simp only [load_source_data]
  rw [if_pos h]

theorem load_ok_of_no_missing {f : CsvFile} (h : missingColumns f.header = []) :
    load_source_data (some f) = Except.ok
      ⟨(readSelected f (usecolsActual f.header)).cols.map
          (normalizeHeaderName f.header),
        (readSelected f (usecolsActual f.header)).rows⟩ := by
  simp only [load_source_data]
  rw [if_neg (by simp [h])]

theorem missingColumns_eq_nil {f : CsvFile}
    (hall : ∀ req ∈ srcCols, ∃ c ∈ f.header,
      normalizeName c = normalizeName req) :
    missingColumns f.header = [] := by
  rw [missingColumns, List.filter_eq_nil_iff]
  intro req hreq
  obtain ⟨c, hc, hnc⟩ := hall req hreq
  simp only [Option.isNone_iff_eq_none, findActual_eq_none_iff]
  push_neg
  exact ⟨c, hc, hnc⟩

theorem range_filter_getD_map (l : List α) (p : α → Bool) (d : α) :
    ((List.range l.length).filter (fun i => p (l.getD i d))).map
        (fun i => l.getD i d) = l.filter p := by
  induction l with
  | nil => rfl
  | cons x xs ih =>
    rw [List.length_cons, List.range_succ_eq_map, List.filter_cons]
    have hcomp : ∀ q : Nat → Bool,
        List.filter q (List.map Nat.succ (List.range xs.length)) =
          List.map Nat.succ (List.filter (fun i => q (Nat.succ i))
            (List.range xs.length)) := by
      intro q
      rw [List.filter_map]
      rfl
    have hfun : (fun i => (x :: xs).getD i d) ∘ Nat.succ
        = fun i => xs.getD i d := by
      funext i; rfl
    have hpred : (fun i => p ((x :: xs).getD (Nat.succ i) d))
        = fun i => p (xs.getD i d) := by
      funext i; rfl
    by_cases hx : p x = true
    · simp only [List.getD_cons_zero, hx, if_pos]
      rw [hcomp, List.map_cons, List.map_map, hfun]
      simp only [List.getD_cons_zero, List.filter_cons, hx, if_pos]
      rw [hpred, ih]
    · have hx' : p x = false := by simpa using hx
      simp only [List.getD_cons_zero, hx', Bool.false_eq_true, if_neg,
        not_false_iff]
      rw [hcomp, List.map_map, hfun, hpred, ih]
      simp [List.filter_cons, hx']

end Applens

namespace Applens

theorem srcCols_norm_inj :
    ∀ x ∈ srcCols, ∀ y ∈ srcCols, normalizeName x = normalizeName y → x = y := by
  decide

theorem srcCols_nodup : srcCols.Nodup := by decide

theorem findActual_isSome_of_match {header : List String} {req : String}
    (h : ∃ c ∈ header, normalizeName c = normalizeName req) :
    ∃ a, findActual header req = some a := by
  obtain ⟨c, hc, hnc⟩ := h
  have hs : (findActual header req).isSome = true := by
    unfold findActual
    rw [List.find?_isSome]
    exact ⟨c, List.mem_reverse.mpr hc, by simp [hnc]⟩
  exact Option.isSome_iff_exists.mp hs

theorem mem_usecolsActual {header : List String} {a : String} :
    a ∈ usecolsActual header ↔
      ∃ req ∈ srcCols, findActual header req = some a := by
  simp [usecolsActual, List.mem_filterMap]

theorem normalizeHeaderName_of_findActual {header : List String} {req a : String}
    (hreq : req ∈ srcCols) (h : findActual header req = some a) :
    normalizeHeaderName header a = req := by
  unfold normalizeHeaderName
  cases hfind : srcCols.find? (fun req' => findActual header req' = some a) with
  | none =>
    exfalso
    rw [List.find?_eq_none] at hfind
    exact hfind req hreq (by simp [h])
  | some req' =>
    have hp0 := List.find?_some hfind
    have hp : findActual header req' = some a := of_decide_eq_true hp0
    have hreq' : req' ∈ srcCols := List.mem_of_find?_eq_some hfind
    have h1 := findActual_spec h
    have h2 := findActual_spec hp
    exact srcCols_norm_inj req' hreq' req hreq (h2.2.symm.trans h1.2)

theorem readSelected_cols (f : CsvFile) (use : List String) :
    (readSelected f use).cols = f.header.filter (fun c => decide (c ∈ use)) := by
  unfold readSelected
  exact range_filter_getD_map f.header (fun c => decide (c ∈ use)) ""

theorem load_ok_shape {f : CsvFile} {df : DataFrame}
    (h : load_source_data (some f) = Except.ok df) :
    missingColumns f.header = [] ∧
      df = ⟨(readSelected f (usecolsActual f.header)).cols.map
              (normalizeHeaderName f.header),
            (readSelected f (usecolsActual f.header)).rows⟩ := by
  have hm : missingColumns f.header = [] := by
    by_contra hne
    rw [load_schemaError hne] at h
    cases h
  rw [load_ok_of_no_missing hm] at h
  cases h
  exact ⟨hm, rfl⟩

theorem load_ok_mem_srcCols {f : CsvFile} {df : DataFrame}
    (h : load_source_data (some f) = Except.ok df) :
    ∀ req ∈ srcCols, req ∈ df.cols := by
  obtain ⟨hm, rfl⟩ := load_ok_shape h
  intro req hreq
  have hsome : ∃ a, findActual f.header req = some a := by
    rw [missingColumns, List.filter_eq_nil_iff] at hm
    have := hm req hreq
    simp only [Option.isNone_iff_eq_none] at this
    cases ha : findActual f.header req with
    | none => exact absurd (by simp [ha]) this
    | some a => exact ⟨a, rfl⟩
  obtain ⟨a, ha⟩ := hsome
  have haspec := findActual_spec ha
  have hause : a ∈ usecolsActual f.header :=
    mem_usecolsActual.mpr ⟨req, hreq, ha⟩
  have hasel : a ∈ (readSelected f (usecolsActual f.header)).cols := by
    rw [readSelected_cols]
    exact List.mem_filter.mpr ⟨haspec.1, by simpa using hause⟩
  have : normalizeHeaderName f.header a = req :=
    normalizeHeaderName_of_findActual hreq ha
  exact this ▸ List.mem_map_of_mem _ hasel

end Applens

namespace Applens

theorem load_ok_cols_sub {f : CsvFile} {df : DataFrame}
    (h : load_source_data (some f) = Except.ok df) :
    ∀ c ∈ df.cols, c ∈ srcCols := by
  obtain ⟨hm, rfl⟩ := load_ok_shape h
  intro c hc
  simp only [List.mem_map] at hc
  obtain ⟨x, hxsel, rfl⟩ := hc
  rw [readSelected_cols] at hxsel
  have hxuse : x ∈ usecolsActual f.header := by
    have := (List.mem_filter.mp hxsel).2
    exact of_decide_eq_true this
  obtain ⟨req, hreq, ha⟩ := mem_usecolsActual.mp hxuse
  rw [normalizeHeaderName_of_findActual hreq ha]
  exact hreq

theorem load_ok_cols_nodup {f : CsvFile} {df : DataFrame}
    (hnd : (f.header.map normalizeName).Nodup)
    (h : load_source_data (some f) = Except.ok df) :
    df.cols.Nodup := by
  obtain ⟨hm, rfl⟩ := load_ok_shape h
  have hhdr : f.header.Nodup := hnd.of_map
  have hsel : (readSelected f (usecolsActual f.header)).cols.Nodup := by
    rw [readSelected_cols]
    exact (List.filter_sublist _).nodup hhdr
  refine hsel.map_on ?_
  intro x hx y hy hxy
  rw [readSelected_cols] at hx hy
  have hxuse : x ∈ usecolsActual f.header :=
    of_decide_eq_true (List.mem_filter.mp hx).2
  have hyuse : y ∈ usecolsActual f.header :=
    of_decide_eq_true (List.mem_filter.mp hy).2
  obtain ⟨reqx, hreqx, hax⟩ := mem_usecolsActual.mp hxuse
  obtain ⟨reqy, hreqy, hay⟩ := mem_usecolsActual.mp hyuse
  rw [normalizeHeaderName_of_findActual hreqx hax,
    normalizeHeaderName_of_findActual hreqy hay] at hxy
  rw [hxy] at hax
  rw [hax] at hay
  exact (Option.some.injEq _ _ ▸ hay : x = y)

theorem readSelected_getCol {f : CsvFile} {use : List String}
    {ren : String → String} {req : String} {j : Nat}
    (hj : ((readSelected f use).cols.map ren).findIdx? (fun x => x = req)
      = some j) :
    ∃ ai, ai < f.header.length ∧ f.header.getD ai "" ∈ use ∧
      ren (f.header.getD ai "") = req ∧
      (readSelected f use).rows.map (fun r => r.getD j Cell.null) =
        f.rows.map (fun r => readCell (r.getD ai "")) := by
  simp only [readSelected] at hj ⊢
  obtain ⟨hjlt0, hcolj⟩ := findIdx?_col_spec hj
  have hjlt : j < ((List.range f.header.length).filter
      (fun i => decide (f.header.getD i "" ∈ use))).length := by
    simpa [List.length_map] using hjlt0
  set I := (List.range f.header.length).filter
    (fun i => decide (f.header.getD i "" ∈ use)) with hI
  have haiI : I.getD j 0 ∈ I := by
    rw [List.getD_eq_getElem?_getD, List.getElem?_eq_getElem hjlt]
    exact List.getElem_mem _
  have hmf := List.mem_filter.mp haiI
  have hairange : I.getD j 0 < f.header.length := List.mem_range.mp hmf.1
  have haiuse : f.header.getD (I.getD j 0) "" ∈ use := of_decide_eq_true hmf.2
  refine ⟨I.getD j 0, hairange, haiuse, ?_, ?_⟩
  · have h1 : ((I.map (fun i => f.header.getD i "")).map ren).getD j ""
        = ren ((I.map (fun i => f.header.getD i "")).getD j "") :=
      getD_map_of_lt ren _ (by simpa [List.length_map] using hjlt) "" ""
    have h2 : (I.map (fun i => f.header.getD i "")).getD j ""
        = f.header.getD (I.getD j 0) "" :=
      getD_map_of_lt _ _ hjlt "" 0
    rw [h1, h2] at hcolj
    exact hcolj
  · rw [List.map_map]
    refine List.map_congr_left (fun r hr => ?_)
    exact getD_map_of_lt (fun i => readCell (r.getD i "")) I hjlt Cell.null 0

end Applens

namespace Applens

/-- Claim C1: running the pipeline on the one-row CSV whose header carries the
five required columns under arbitrary casing (`issue key`, `ISSUE TYPE`, ...)
with values Issue Key=ABC-1, Issue Type=Bug, Updated=2024-01-01, Status=Open,
Resolved=empty succeeds and yields exactly one output row with Ticket
ID=ABC-1, Ticket Type=Bug, Open Date=2024-01-01, Priority=NONE, Status=Open,
Application=HMOF, Assignment Group=HMH Support Group, and Closed Date the
empty string. -/
theorem c1_round_trip :
    run_transformation_pipeline
      (some ⟨["issue key", "ISSUE TYPE", "Updated", "Status", "Resolved"],
             [["ABC-1", "Bug", "2024-01-01", "Open", ""]]⟩) true =
      (true, some ⟨FINAL_COLUMN_ORDER,
        [[Cell.str "ABC-1", Cell.str "Bug", Cell.date 2024 1 1,
          Cell.str "NONE", Cell.str "Open", Cell.str "HMOF",
          Cell.str "HMH Support Group", Cell.str ""]]⟩) := by decide

/-- Claim C9: running the pipeline twice on the same input and output paths
produces byte-equivalent output artifacts (the second run reads the same
input and its success flag and written artifact coincide with the first
run's, whatever artifact was previously sitting at the output path). -/
theorem c9_two_runs_byte_equal (fs : FileSystem) (w : Bool) :
    (runOnFS ((runOnFS fs w).2) w).2.output = (runOnFS fs w).2.output ∧
    (runOnFS ((runOnFS fs w).2) w).1 = (runOnFS fs w).1 := by
  unfold runOnFS
  cases h : run_transformation_pipeline fs.input w with
  | mk ok art =>
    cases ok with
    | false => simp [h]
    | true => simp [h]

/-- Claim C2: whenever the Writer emits an artifact, that artifact has
exactly the eight `FINAL_COLUMN_ORDER` columns in that exact order (every
other column is dropped by the projection); and if any final column is
absent from the Dataset, the projection fails with a KeyError-class error
and no output is emitted. -/
theorem c2_final_projection (df : DataFrame) (w : Bool) :
    (∀ b art, save_target_file df w = (b, some art) →
      art.cols = FINAL_COLUMN_ORDER) ∧
    ((∀ c ∈ FINAL_COLUMN_ORDER, c ∈ df.cols) ∨
      (projectFinal df = Except.error (CleanError.keyError "projection") ∧
        save_target_file df w = (false, none))) := by
  constructor
  · intro b art h
    unfold save_target_file at h
    cases hp : projectFinal df with
    | error e => rw [hp] at h; simp at h
    | ok dfF =>
      rw [hp] at h
      cases w with
      | false => simp at h
      | true =>
        simp only [if_pos] at h
        have : dfF = art := by
          have := (Prod.mk.injEq _ _ _ _ ▸ h)
          exact Option.some.injEq _ _ ▸ this.2
        rw [← this]
        exact projectFinal_ok_cols hp
  · by_cases hall : ∀ c ∈ FINAL_COLUMN_ORDER, c ∈ df.cols
    · exact Or.inl hall
    · right
      push_neg at hall
      obtain ⟨c, hc, hnc⟩ := hall
      have herr := projectFinal_err_of_missing hc hnc
      refine ⟨herr, ?_⟩
      unfold save_target_file
      rw [herr]

/-- Witness for C2 at a concrete Dataset on which the Writer succeeds. -/
theorem c2_final_projection_witness :
    (⟨FINAL_COLUMN_ORDER, ([] : List (List Cell))⟩ : DataFrame).cols
      = FINAL_COLUMN_ORDER :=
  (c2_final_projection ⟨FINAL_COLUMN_ORDER, []⟩ true).1 true
    ⟨FINAL_COLUMN_ORDER, []⟩ (by decide)

/-- Claim C3: for every input file whose header (after lowercasing and
stripping) fails to match one or more of the five required source columns,
loading fails with a SchemaError whose missing-column list enumerates
exactly the required columns with no case/whitespace-insensitive match —
all of them, not only the first — and no Dataset is produced. -/
theorem c3_schema_error_lists_all (f : CsvFile)
    (h : ∃ req ∈ srcCols, ∀ c ∈ f.header,
      normalizeName c ≠ normalizeName req) :
    ∃ L, load_source_data (some f) = Except.error (LoadError.schemaError L) ∧
      ∀ req, req ∈ L ↔
        (req ∈ srcCols ∧ ∀ c ∈ f.header,
          normalizeName c ≠ normalizeName req) := by
  have hne : missingColumns f.header ≠ [] := by
    obtain ⟨req, hreq, hmiss⟩ := h
    intro h0
    have hmem : req ∈ missingColumns f.header :=
      mem_missingColumns.mpr ⟨hreq, hmiss⟩
    rw [h0] at hmem
    cases hmem
  exact ⟨missingColumns f.header, load_schemaError hne,
    fun req => mem_missingColumns⟩

/-- Witness for C3: a file providing only `issue key` is missing the other
four required columns, and the SchemaError lists each of them. -/
theorem c3_schema_error_lists_all_witness :
    (∃ req ∈ srcCols, ∀ c ∈ ({ header := ["issue key"], rows := [] } :
        CsvFile).header, normalizeName c ≠ normalizeName req) ∧
    (∃ L, load_source_data (some ⟨["issue key"], []⟩)
        = Except.error (LoadError.schemaError L) ∧
      ∀ req, req ∈ L ↔
        (req ∈ srcCols ∧ ∀ c ∈ (⟨["issue key"], []⟩ : CsvFile).header,
          normalizeName c ≠ normalizeName req)) :=
  ⟨by decide, c3_schema_error_lists_all ⟨["issue key"], []⟩ (by decide)⟩

end Applens


namespace Applens

/-- Claim C7: the orchestrator never raises past its boundary — for every
input and write outcome it resolves to a boolean with an artifact emitted
only on success; the Writer catches its own failures (failed projection or
failed serialization) and returns `(false, none)` without re-raising; and
the orchestrator returns `true` exactly when loading, mapping and cleaning
succeed and the Writer reports success. -/
theorem c7_orchestrator_boolean (input : Option CsvFile) (w : Bool) :
    (run_transformation_pipeline input w = (false, none) ∨
      ∃ art, run_transformation_pipeline input w = (true, some art)
        ∧ w = true) ∧
    (∀ df, save_target_file df w = (false, none) ∨
      ∃ art, save_target_file df w = (true, some art)) ∧
    ((run_transformation_pipeline input w).1 = true ↔
      ∃ df df2, load_source_data input = Except.ok df ∧
        validate_and_clean (apply_transformations df) = Except.ok df2 ∧
        (save_target_file df2 w).1 = true) := by
  have hsave : ∀ df, save_target_file df w = (false, none) ∨
      ∃ art, save_target_file df w = (true, some art) ∧ w = true := by
    intro df
    unfold save_target_file
    split
    · exact Or.inl rfl
    · rename_i dfF heq
      cases w with
      | false => exact Or.inl rfl
      | true => exact Or.inr ⟨dfF, rfl, rfl⟩
  refine ⟨?_, fun df => (hsave df).imp id (fun h => ⟨h.choose, h.choose_spec.1⟩),
    ?_⟩
  · unfold run_transformation_pipeline
    split
    · exact Or.inl rfl
    · split
      · exact Or.inl rfl
      · exact hsave _
  · constructor
    · intro h
      unfold run_transformation_pipeline at h
      split at h
      · cases h
      · split at h
        · cases h
        · exact ⟨_, _, by assumption, by assumption, h⟩
    · rintro ⟨df, df2, hl, hv, hs⟩
      unfold run_transformation_pipeline
      split
      · rename_i e heq
        rw [hl] at heq
        cases heq
      · rename_i df' heq
        rw [hl] at heq
        injection heq with hdf
        subst hdf
        split
        · rename_i e2 heq2
          rw [hv] at heq2
          cases heq2
        · rename_i df2' heq2
          rw [hv] at heq2
          injection heq2 with hdf2
          subst hdf2
          exact hs

end Applens

namespace Applens

theorem closed_date_mem_apply {df : DataFrame} (h : "Resolved" ∈ df.cols) :
    "Closed Date" ∈ (apply_transformations df).cols := by
  rw [apply_transformations_eq]
  apply setConst_cols_mono
  apply setConst_cols_mono
  apply setConst_cols_mono
  unfold renameCols
  simp only [List.mem_map]
  exact ⟨"Resolved", h, by decide⟩

/-- Counterexample for C10 as stated: constant injection alone does not put
`Closed Date` into the Dataset — on a Mapper output built from a Dataset
without a `Resolved` column, the cleaner's unguarded `Closed Date` access
fires, so the constant injection is not what makes that branch unreachable. -/
theorem c10_counterexample :
    "Closed Date" ∉
      (apply_transformations ⟨["Ticket ID"], [[Cell.str "A"]]⟩).cols ∧
    validate_and_clean (apply_transformations ⟨["Ticket ID"], [[Cell.str "A"]]⟩)
      = Except.error (CleanError.keyError "Closed Date") := by decide

/-- Claim C10 (amended): `validate_and_clean` is total only on Datasets
containing a `Closed Date` column — the date-coercion loop is guarded by
column presence, but the final null-normalization accesses `Closed Date`
unconditionally, so any input Dataset lacking that column fails with a
KeyError-class error; inside the pipeline the branch is unreachable because
the Loader guarantees a `Resolved` column which the Mapper renames to
`Closed Date` (the constant injection plays no part: its columns do not
include `Closed Date`). -/
theorem c10_closed_date_totality :
    (∀ df : DataFrame, "Closed Date" ∉ df.cols →
      ∃ c, validate_and_clean df = Except.error (CleanError.keyError c)) ∧
    (∀ (f : CsvFile) (df : DataFrame),
      load_source_data (some f) = Except.ok df →
        "Closed Date" ∈ (apply_transformations df).cols ∧
        "Resolved" ∈ df.cols) ∧
    "Closed Date" ∉ CONSTANTS.map Prod.fst := by
  refine ⟨fun df h => validate_and_clean_err_of_no_closed h, ?_, by decide⟩
  intro f df h
  have hres : "Resolved" ∈ df.cols :=
    load_ok_mem_srcCols h "Resolved" (by decide)
  exact ⟨closed_date_mem_apply hres, hres⟩

/-- Witness for C10 at concrete inputs: the empty Dataset triggers the
KeyError, and a canonically-headed file loads with a `Resolved` column that
the Mapper turns into `Closed Date`. -/
theorem c10_closed_date_totality_witness :
    (∃ c, validate_and_clean (⟨[], []⟩ : DataFrame)
        = Except.error (CleanError.keyError c)) ∧
    ("Closed Date" ∈ (apply_transformations
        ⟨["Issue Key", "Issue Type", "Updated", "Status", "Resolved"],
          []⟩).cols ∧
      "Resolved" ∈ ((⟨["Issue Key", "Issue Type", "Updated", "Status",
        "Resolved"], []⟩ : DataFrame)).cols) :=
  ⟨c10_closed_date_totality.1 ⟨[], []⟩ (by decide),
   c10_closed_date_totality.2.1
     ⟨["Issue Key", "Issue Type", "Updated", "Status", "Resolved"], []⟩
     ⟨["Issue Key", "Issue Type", "Updated", "Status", "Resolved"], []⟩
     (by decide)⟩

/-- Claim C5: every row whose mandatory `Ticket ID` cell is missing is
absent from the cleaned Dataset, every other row is kept unchanged in its
relative order, and the row-count decrease equals exactly the number of
rows with missing Ticket ID (also through the full cleaner, whose date
steps drop no further rows). -/
theorem c5_drop_missing_ticket (df : DataFrame) {i : Nat}
    (hfi : df.cols.findIdx? (fun x => x = "Ticket ID") = some i) :
    ∃ df1, dropTicketRows df = Except.ok df1 ∧
      df1.rows = df.rows.filter (fun r => !isNA (r.getD i Cell.null)) ∧
      (∀ r ∈ df1.rows, isNA (r.getD i Cell.null) = false) ∧
      (∀ r ∈ df.rows, isNA (r.getD i Cell.null) = false → r ∈ df1.rows) ∧
      df1.rows.Sublist df.rows ∧
      df1.rows.length +
          (df.rows.filter (fun r => isNA (r.getD i Cell.null))).length
        = df.rows.length ∧
      (∀ df2, validate_and_clean df = Except.ok df2 →
        df2.rows.length = df1.rows.length) := by
  refine ⟨_, dropTicketRows_ok hfi, rfl, ?_, ?_, ?_, ?_, ?_⟩
  · intro r hr
    have := (List.mem_filter.mp hr).2
    simpa using this
  · intro r hr hna
    exact List.mem_filter.mpr ⟨hr, by simp only [hna, Bool.not_false]⟩
  · exact List.filter_sublist _
  · have h := length_filter_add_length_not df.rows
      (fun r => !isNA (r.getD i Cell.null))
    simpa using h
  · intro df2 h2
    exact validate_ok_rows_length hfi h2

/-- Witness for C5 at a two-row Dataset with one missing Ticket ID. -/
theorem c5_drop_missing_ticket_witness :
    ∃ df1, dropTicketRows ⟨["Ticket ID"], [[Cell.null], [Cell.str "A"]]⟩
        = Except.ok df1 ∧
      df1.rows = [[Cell.null], [Cell.str "A"]].filter
        (fun r => !isNA (r.getD 0 Cell.null)) ∧
      (∀ r ∈ df1.rows, isNA (r.getD 0 Cell.null) = false) ∧
      (∀ r ∈ [[Cell.null], [Cell.str "A"]],
        isNA (r.getD 0 Cell.null) = false → r ∈ df1.rows) ∧
      df1.rows.Sublist [[Cell.null], [Cell.str "A"]] ∧
      df1.rows.length + ([[Cell.null], [Cell.str "A"]].filter
          (fun r => isNA (r.getD 0 Cell.null))).length
        = [[Cell.null], [Cell.str "A"]].length ∧
      (∀ df2, validate_and_clean ⟨["Ticket ID"], [[Cell.null], [Cell.str "A"]]⟩
          = Except.ok df2 → df2.rows.length = df1.rows.length) :=
  c5_drop_missing_ticket ⟨["Ticket ID"], [[Cell.null], [Cell.str "A"]]⟩
    (by decide)

end Applens

namespace Applens

/-- Claim C8: the Mapper renames every column via `COLUMN_MAPPING`, then
forces each `CONSTANTS` column (Priority=NONE, Application=HMOF,
Assignment Group=HMH Support Group) to its fixed literal on every row,
overwriting any same-named column (constants always win); the row count is
unchanged (and the stage, a total function, cannot fail). -/
theorem c8_mapper (df : DataFrame) (hA : df.alignedB = true) :
    (apply_transformations df).rows.length = df.rows.length ∧
    (apply_transformations df).cols.take df.cols.length
      = (renameCols COLUMN_MAPPING df).cols ∧
    (∀ p ∈ CONSTANTS, getColCells (apply_transformations df) p.1
      = List.replicate df.rows.length (Cell.str p.2)) := by
  have hA1 : (renameCols COLUMN_MAPPING df).alignedB = true :=
    renameCols_aligned _ hA
  have hA2 : (setConst (renameCols COLUMN_MAPPING df)
      "Priority" "NONE").alignedB = true := setConst_aligned _ _ hA1
  have hA3 : (setConst (setConst (renameCols COLUMN_MAPPING df)
        "Priority" "NONE") "Application" "HMOF").alignedB = true :=
    setConst_aligned _ _ hA2
  refine ⟨?_, ?_, ?_⟩
  · rw [apply_transformations_eq]
    simp [setConst_rows_length, renameCols]
  · rw [apply_transformations_eq]
    obtain ⟨e1, he1⟩ := setConst_cols_extend
      (renameCols COLUMN_MAPPING df) "Priority" "NONE"
    obtain ⟨e2, he2⟩ := setConst_cols_extend
      (setConst (renameCols COLUMN_MAPPING df) "Priority" "NONE")
      "Application" "HMOF"
    obtain ⟨e3, he3⟩ := setConst_cols_extend
      (setConst (setConst (renameCols COLUMN_MAPPING df) "Priority" "NONE")
        "Application" "HMOF") "Assignment Group" "HMH Support Group"
    rw [he3, he2, he1, List.append_assoc, List.append_assoc]
    exact List.take_left' (by simp [renameCols])
  · intro p hp
    simp only [CONSTANTS, List.mem_cons, List.not_mem_nil, or_false] at hp
    rcases hp with rfl | rfl | rfl
    · rw [apply_transformations_eq]
      rw [getColCells_setConst_other _ (by decide) hA3]
      rw [getColCells_setConst_other _ (by decide) hA2]
      rw [getColCells_setConst_self _ _ hA1]
      rfl
    · rw [apply_transformations_eq]
      rw [getColCells_setConst_other _ (by decide) hA3]
      rw [getColCells_setConst_self _ _ hA2]
      rw [setConst_rows_length]
      rfl
    · rw [apply_transformations_eq]
      rw [getColCells_setConst_self _ _ hA3]
      rw [setConst_rows_length, setConst_rows_length]
      rfl

/-- Witness for C8 at a concrete one-row Dataset. -/
theorem c8_mapper_witness :
    (apply_transformations ⟨["Issue Key"], [[Cell.str "x"]]⟩).rows.length
        = 1 ∧
    (apply_transformations ⟨["Issue Key"], [[Cell.str "x"]]⟩).cols.take 1
      = (renameCols COLUMN_MAPPING ⟨["Issue Key"], [[Cell.str "x"]]⟩).cols ∧
    (∀ p ∈ CONSTANTS, getColCells
        (apply_transformations ⟨["Issue Key"], [[Cell.str "x"]]⟩) p.1
      = List.replicate 1 (Cell.str p.2)) :=
  c8_mapper ⟨["Issue Key"], [[Cell.str "x"]]⟩ (by decide)

end Applens

namespace Applens

theorem clean_cols_getCol {d : DataFrame} (hA1 : d.alignedB = true)
    (hO : "Open Date" ∈ d.cols) (hC : "Closed Date" ∈ d.cols) :
    getColCells (setColCells (setColCells (setColCells d "Open Date"
        coerceDate) "Closed Date" coerceDate) "Closed Date" fillBlank)
        "Open Date"
      = (getColCells d "Open Date").map coerceDate ∧
    getColCells (setColCells (setColCells (setColCells d "Open Date"
        coerceDate) "Closed Date" coerceDate) "Closed Date" fillBlank)
        "Closed Date"
      = (getColCells d "Closed Date").map (fun x => fillBlank (coerceDate x)) := by
  have hA2 := setColCells_aligned "Open Date" coerceDate hA1
  have hA3 := setColCells_aligned "Closed Date" coerceDate hA2
  have hC2 : "Closed Date" ∈ (setColCells d "Open Date" coerceDate).cols := by
    rw [setColCells_cols]; exact hC
  have hC3 : "Closed Date" ∈ (setColCells (setColCells d "Open Date"
      coerceDate) "Closed Date" coerceDate).cols := by
    rw [setColCells_cols, setColCells_cols]; exact hC
  constructor
  · rw [getColCells_setColCells_other fillBlank (by decide)]
    rw [getColCells_setColCells_other coerceDate (by decide)]
    rw [getColCells_setColCells_self coerceDate hO hA1]
  · rw [getColCells_setColCells_self fillBlank hC3 hA3]
    rw [getColCells_setColCells_self coerceDate hC2 hA2]
    rw [getColCells_setColCells_other coerceDate (by decide)]
    rw [List.map_map]
    rfl

/-- Claim C6: on a mapped Dataset (mandatory and date-bearing columns
present), the Validator/Cleaner never raises: it succeeds, every value of
the date-bearing columns is coerced (an unparseable string becomes a null
date rather than an error), and nulls in the `Closed Date` column are
further normalized to the empty string. -/
theorem c6_date_coercion (df : DataFrame) (hA : df.alignedB = true)
    (hT : "Ticket ID" ∈ df.cols) (hO : "Open Date" ∈ df.cols)
    (hC : "Closed Date" ∈ df.cols) :
    ∃ df1 df2, dropTicketRows df = Except.ok df1 ∧
      validate_and_clean df = Except.ok df2 ∧
      getColCells df2 "Open Date"
        = (getColCells df1 "Open Date").map coerceDate ∧
      getColCells df2 "Closed Date"
        = (getColCells df1 "Closed Date").map
            (fun x => fillBlank (coerceDate x)) ∧
      (∀ s, parseDate s = none → coerceDate (Cell.str s) = Cell.null) ∧
      fillBlank Cell.null = Cell.str "" := by
  obtain ⟨i, hfi⟩ := findIdx?_col_isSome hT
  have hv := validate_and_clean_eq_of_mem hfi hO hC
  have hA1 : ((⟨df.cols, df.rows.filter
      (fun r => !isNA (r.getD i Cell.null))⟩ : DataFrame)).alignedB = true := by
    simp only [DataFrame.alignedB, List.all_eq_true] at hA ⊢
    intro r hr
    exact hA r (List.mem_filter.mp hr).1
  have hchain := clean_cols_getCol hA1 (show "Open Date" ∈ _ from hO)
    (show "Closed Date" ∈ _ from hC)
  refine ⟨⟨df.cols, df.rows.filter (fun r => !isNA (r.getD i Cell.null))⟩, _,
    dropTicketRows_ok hfi, hv, hchain.1, hchain.2, ?_, rfl⟩
  intro s hs
  simp [coerceDate, hs]

/-- Witness for C6 at a one-row Dataset with an unparseable Open Date and a
missing Closed Date value. -/
theorem c6_date_coercion_witness :
    ∃ df1 df2, dropTicketRows
        ⟨["Ticket ID", "Open Date", "Closed Date"],
          [[Cell.str "A", Cell.str "garbage", Cell.null]]⟩ = Except.ok df1 ∧
      validate_and_clean
        ⟨["Ticket ID", "Open Date", "Closed Date"],
          [[Cell.str "A", Cell.str "garbage", Cell.null]]⟩ = Except.ok df2 ∧
      getColCells df2 "Open Date"
        = (getColCells df1 "Open Date").map coerceDate ∧
      getColCells df2 "Closed Date"
        = (getColCells df1 "Closed Date").map
            (fun x => fillBlank (coerceDate x)) ∧
      (∀ s, parseDate s = none → coerceDate (Cell.str s) = Cell.null) ∧
      fillBlank Cell.null = Cell.str "" :=
  c6_date_coercion ⟨["Ticket ID", "Open Date", "Closed Date"],
      [[Cell.str "A", Cell.str "garbage", Cell.null]]⟩
    (by decide) (by decide) (by decide) (by decide)

end Applens

namespace Applens

theorem getColCells_eq_of_findIdx? {df : DataFrame} {c : String} {j : Nat}
    (hj : df.cols.findIdx? (fun x => x = c) = some j) :
    getColCells df c = df.rows.map (fun r => r.getD j Cell.null) := by
  unfold getColCells
  rw [hj]

/-- Claim C4: for every input file whose header matches all five required
source columns under any letter-case and surrounding-whitespace variant
(and whose normalized header names are distinct, as pandas' reader
presupposes), loading succeeds, the resulting Dataset's columns are exactly
the canonical source-side keys of `COLUMN_MAPPING`, and each canonical
column carries the values of the matching actual column of the file. -/
theorem c4_load_canonical (f : CsvFile)
    (hnd : (f.header.map normalizeName).Nodup)
    (hall : ∀ req ∈ srcCols, ∃ c ∈ f.header,
      normalizeName c = normalizeName req) :
    ∃ df, load_source_data (some f) = Except.ok df ∧
      df.cols.Perm srcCols ∧
      ∀ req ∈ srcCols, ∃ ai, ai < f.header.length ∧
        normalizeName (f.header.getD ai "") = normalizeName req ∧
        getColCells df req = f.rows.map (fun r => readCell (r.getD ai "")) := by
  have hm := missingColumns_eq_nil hall
  have hload := load_ok_of_no_missing hm
  refine ⟨_, hload, ?_, ?_⟩
  · have hnodup := load_ok_cols_nodup hnd hload
    have hsub := load_ok_cols_sub hload
    rw [List.perm_ext_iff_of_nodup hnodup srcCols_nodup]
    intro a
    exact ⟨fun h => hsub a h, fun h => load_ok_mem_srcCols hload a h⟩
  · intro req hreq
    have hmem := load_ok_mem_srcCols hload req hreq
    obtain ⟨j, hj⟩ := findIdx?_col_isSome hmem
    obtain ⟨ai, hai, haiuse, hren, hrows⟩ := readSelected_getCol hj
    refine ⟨ai, hai, ?_, ?_⟩
    · obtain ⟨req', hreq', ha'⟩ := mem_usecolsActual.mp haiuse
      have hrn : normalizeHeaderName f.header (f.header.getD ai "") = req' :=
        normalizeHeaderName_of_findActual hreq' ha'
      have hreqeq : req' = req := by rw [← hren, hrn]
      subst hreqeq
      exact (findActual_spec ha').2
    · rw [getColCells_eq_of_findIdx? hj]
      exact hrows

/-- Witness for C4: a file with an extra column and the five required
columns under varied casing and whitespace. -/
theorem c4_load_canonical_witness :
    ∃ df, load_source_data (some ⟨["extra", "issue key ", "ISSUE TYPE",
        "Updated", "status", "RESOLVED"],
        [["x", "K-1", "Bug", "2024-01-01", "Open", ""]]⟩) = Except.ok df ∧
      df.cols.Perm srcCols ∧
      ∀ req ∈ srcCols, ∃ ai,
        ai < (["extra", "issue key ", "ISSUE TYPE", "Updated", "status",
          "RESOLVED"] : List String).length ∧
        normalizeName ((["extra", "issue key ", "ISSUE TYPE", "Updated",
          "status", "RESOLVED"] : List String).getD ai "")
          = normalizeName req ∧
        getColCells df req = [["x", "K-1", "Bug", "2024-01-01", "Open",
          ""]].map (fun r => readCell (r.getD ai "")) :=
  c4_load_canonical ⟨["extra", "issue key ", "ISSUE TYPE", "Updated",
      "status", "RESOLVED"],
      [["x", "K-1", "Bug", "2024-01-01", "Open", ""]]⟩
    (by decide) (by decide)

end Applens
